import Mathlib

/-!
Shallow embedding of src/variance-example.ts: a generic data-processing
pipeline (validate / process / transform) over entity-like and event-like
records.

Modelling conventions: a thrown TypeScript Error is modelled as
`Except Fault` with the fault carrying the error message; Promise
sequencing collapses to pure sequencing (the source awaits every rule
before the next one); `Date` fields are modelled as `Option Nat` (a Date
object is always truthy, an absent field is falsy); string fields are
falsy exactly when empty, matching JavaScript truthiness; the wall-clock
`duration` of a summary is modelled as 0.
-/

/-- A runtime fault (a thrown Error), identified by its message. -/
abbrev Fault := String

deriving instance DecidableEq for Except

/-- interface ValidationResult (isValid, errors). -/
structure ValidationResult where
  isValid : Bool
  errors : List String
deriving Repr, DecidableEq

/-- interface ProcessingError (item, error, code). -/
structure ProcessingError (T : Type) where
  item : T
  error : String
  code : String
deriving Repr, DecidableEq

/-- interface ProcessingSummary (total, successful, failed, duration). -/
structure ProcessingSummary where
  total : Nat
  successful : Nat
  failed : Nat
  duration : Nat
deriving Repr, DecidableEq

/-- interface ProcessingResult (processed, errors, summary). -/
structure ProcessingResult (T : Type) where
  processed : List T
  errors : List (ProcessingError T)
  summary : ProcessingSummary
deriving Repr, DecidableEq

/-- The `T extends Entity` constraint: the record carries an id and
created/updated timestamps. -/
class EntityLike (T : Type) where
  id : T → String
  createdAt : T → Option Nat
  updatedAt : T → Option Nat

/-- The `T extends BaseEvent` constraint: the record carries an id and an
event-type tag. -/
class EventLike (T : Type) where
  id : T → String
  eventType : T → String

/-- interface BusinessRule (name, apply); apply may fault. -/
structure BusinessRule (T : Type) where
  name : String
  apply : T → Except Fault T

/-- class BaseDataProcessor: a custom validator (which may fault) and an
ordered list of business rules. -/
structure BaseDataProcessor (T : Type) where
  validator : T → Except Fault ValidationResult
  businessRules : List (BusinessRule T) := []

/-- errors.join(', ') from the source, as a structurally recursive
function so that it evaluates by kernel reduction. -/
def joinComma : List String → String
  | [] => ""
  | [e] => e
  | e :: rest => e ++ ", " ++ joinComma rest

/-- The basic entity validation block of BaseDataProcessor.validate:
`if (!item.id) ...`, `if (!item.createdAt) ...`, `if (!item.updatedAt) ...`,
pushed in source order. -/
def structuralEntityErrors {T : Type} [EntityLike T] (item : T) : List String :=
  (if EntityLike.id item = "" then ["ID is required"] else []) ++
  (if (EntityLike.createdAt item).isNone then ["Created date is required"] else []) ++
  (if (EntityLike.updatedAt item).isNone then ["Updated date is required"] else [])

/-- BaseDataProcessor.validate: structural checks plus the custom
validator's errors when the custom outcome is invalid; valid iff the
combined error list is empty.  A fault thrown by the custom validator
propagates (validate has no try/catch). -/
def BaseDataProcessor.validate {T : Type} [EntityLike T]
    (p : BaseDataProcessor T) (item : T) : Except Fault ValidationResult :=
  match p.validator item with
  | .error e => .error e
  | .ok customValidation =>
    let errors := structuralEntityErrors item ++
      (if !customValidation.isValid then customValidation.errors else [])
    .ok { isValid := errors.isEmpty, errors := errors }

/-- BaseDataProcessor.applyBusinessRules: thread the item through each rule
in order; `{ ...item }` is the identity on pure values. -/
def BaseDataProcessor.applyBusinessRules {T : Type}
    (p : BaseDataProcessor T) (item : T) : Except Fault T :=
  p.businessRules.foldlM (fun processedItem rule => rule.apply processedItem) item

/-- One iteration of the loop body of BaseDataProcessor.process: the whole
body runs inside try/catch, so a fault from validate or from the rules is
recorded as PROCESSING_ERROR; an invalid validation outcome is recorded as
VALIDATION_ERROR with the joined messages; otherwise the transformed item
is appended to processed. -/
def BaseDataProcessor.processStep {T : Type} [EntityLike T]
    (p : BaseDataProcessor T)
    (acc : List T × List (ProcessingError T)) (item : T) :
    List T × List (ProcessingError T) :=
  match p.validate item with
  | .error e => (acc.1, acc.2 ++ [⟨item, e, "PROCESSING_ERROR"⟩])
  | .ok validation =>
    if !validation.isValid then
      (acc.1, acc.2 ++ [⟨item, joinComma validation.errors, "VALIDATION_ERROR"⟩])
    else
      match p.applyBusinessRules item with
      | .error e => (acc.1, acc.2 ++ [⟨item, e, "PROCESSING_ERROR"⟩])
      | .ok processedItem => (acc.1 ++ [processedItem], acc.2)

/-- BaseDataProcessor.process: fold the loop body over the input and build
the summary from the lengths. -/
def BaseDataProcessor.process {T : Type} [EntityLike T]
    (p : BaseDataProcessor T) (data : List T) : ProcessingResult T :=
  let r := data.foldl p.processStep ([], [])
  { processed := r.1
    errors := r.2
    summary :=
      { total := data.length
        successful := r.1.length
        failed := r.2.length
        duration := 0 } }

/-- data.map(transformer) under the exception effect: JavaScript map stops
at the first thrown fault and propagates it, producing no list. -/
def mapThrow {T U : Type} (transformer : T → Except Fault U) :
    List T → Except Fault (List U)
  | [] => .ok []
  | x :: xs =>
    match transformer x with
    | .error e => .error e
    | .ok y =>
      match mapThrow transformer xs with
      | .error e => .error e
      | .ok ys => .ok (y :: ys)

/-- BaseDataProcessor.transform: `return data.map(transformer)` with no
try/catch, so a mapper fault propagates to the caller. -/
def BaseDataProcessor.transform {T U : Type}
    (data : List T) (transformer : T → Except Fault U) : Except Fault (List U) :=
  mapThrow transformer data

namespace createEventProcessor

/-- One iteration of the loop body of the process method returned by
createEventProcessor: it calls the captured custom `validator` directly
(not the object's validate), and the "Apply rules" block is
`let processedItem = item` — the item is pushed unchanged. -/
def processStep {T : Type} (validator : T → Except Fault ValidationResult)
    (acc : List T × List (ProcessingError T)) (item : T) :
    List T × List (ProcessingError T) :=
  match validator item with
  | .error e => (acc.1, acc.2 ++ [⟨item, e, "PROCESSING_ERROR"⟩])
  | .ok validation =>
    if !validation.isValid then
      (acc.1, acc.2 ++ [⟨item, joinComma validation.errors, "VALIDATION_ERROR"⟩])
    else
      (acc.1 ++ [item], acc.2)

/-- The process method returned by createEventProcessor. -/
def process {T : Type} (validator : T → Except Fault ValidationResult)
    (data : List T) : ProcessingResult T :=
  let r := data.foldl (processStep validator) ([], [])
  { processed := r.1
    errors := r.2
    summary :=
      { total := data.length
        successful := r.1.length
        failed := r.2.length
        duration := 0 } }

/-- The basic event validation block: `if (!item.id) ...`,
`if (!item.eventType) ...`. -/
def structuralEventErrors {T : Type} [EventLike T] (item : T) : List String :=
  (if EventLike.id item = "" then ["ID is required"] else []) ++
  (if EventLike.eventType item = "" then ["Event type is required"] else [])

/-- The validate method returned by createEventProcessor: structural event
checks plus the custom validator's errors when its outcome is invalid;
valid iff the combined error list is empty. -/
def validate {T : Type} [EventLike T]
    (validator : T → Except Fault ValidationResult) (item : T) :
    Except Fault ValidationResult :=
  match validator item with
  | .error e => .error e
  | .ok customValidation =>
    let errors := structuralEventErrors item ++
      (if !customValidation.isValid then customValidation.errors else [])
    .ok { isValid := errors.isEmpty, errors := errors }

/-- The transform method returned by createEventProcessor:
`return data.map(transformer)`, no try/catch. -/
def transform {T U : Type}
    (data : List T) (transformer : T → Except Fault U) : Except Fault (List U) :=
  mapThrow transformer data

end createEventProcessor

/-- The role field of User. -/
inductive Role
  | admin
  | user
deriving Repr, DecidableEq

/-- interface User extends Entity. -/
structure User where
  id : String
  createdAt : Option Nat
  updatedAt : Option Nat
  email : String
  name : String
  role : Role
deriving Repr, DecidableEq

instance : EntityLike User :=
  ⟨User.id, User.createdAt, User.updatedAt⟩

/-- The custom validator passed by the UserProcessor constructor. -/
def userValidator (user : User) : Except Fault ValidationResult :=
  .ok
    { isValid := user.email.data.contains '@' && decide (user.name.length > 0)
      errors :=
        (if user.email.data.contains '@' then [] else ["Invalid email format"]) ++
        (if user.name.length > 0 then [] else ["Name is required"]) }

/-- JavaScript String.toLowerCase, as a structurally recursive map over
the character list. -/
def jsToLower (s : String) : String :=
  ⟨s.data.map Char.toLower⟩

/-- A whitespace character as stripped by JavaScript String.trim. -/
def isJsSpace (c : Char) : Bool :=
  c == ' ' || c == '\t' || c == '\n' || c == '\r'

/-- JavaScript String.trim: strip whitespace at both ends. -/
def jsTrim (s : String) : String :=
  ⟨((s.data.dropWhile isJsSpace).reverse.dropWhile isJsSpace).reverse⟩

/-- The normalizeEmail rule: email := email.toLowerCase().trim(). -/
def normalizeEmail : BusinessRule User :=
  ⟨"normalizeEmail", fun user => .ok { user with email := jsTrim (jsToLower user.email) }⟩

/-- The updateTimestamp rule: updatedAt := new Date(); the Date created at
application time is modelled by the parameter now. -/
def updateTimestamp (now : Nat) : BusinessRule User :=
  ⟨"updateTimestamp", fun user => .ok { user with updatedAt := some now }⟩

/-- class UserProcessor extends BaseDataProcessor, parameterised by the
clock value observed by updateTimestamp. -/
def UserProcessor (now : Nat) : BaseDataProcessor User :=
  { validator := userValidator
    businessRules := [normalizeEmail, updateTimestamp now] }

/-- interface userLoginEvent extends BaseEvent. -/
structure userLoginEvent where
  id : String
  eventType : String
  userId : String
  timestamp : Option Nat
deriving Repr, DecidableEq

instance : EventLike userLoginEvent :=
  ⟨userLoginEvent.id, userLoginEvent.eventType⟩

/-- The userLoginValidator from the source. -/
def userLoginValidator (event : userLoginEvent) : Except Fault ValidationResult :=
  let errors :=
    (if event.userId = "" then ["User ID is required"] else []) ++
    (if event.timestamp.isNone then ["Timestamp is required"] else [])
  .ok { isValid := errors.isEmpty, errors := errors }

/-- type BaseEvent (id, eventType), as a concrete record for the generic
event processor. -/
structure BaseEvent where
  id : String
  eventType : String
deriving Repr, DecidableEq

instance : EventLike BaseEvent :=
  ⟨BaseEvent.id, BaseEvent.eventType⟩

/-- The validator of genericEventProcessor:
`event => ({ isValid: !!event.id && !!event.eventType, errors: [] })`. -/
def genericEventValidator (event : BaseEvent) : Except Fault ValidationResult :=
  .ok { isValid := (event.id != "") && (event.eventType != ""), errors := [] }

/-- The successful component of a per-item outcome. -/
def succOutcome {E A : Type} : Except E A → Option A
  | .ok a => some a
  | .error _ => none

/-- The failing component of a per-item outcome. -/
def failOutcome {E A : Type} : Except E A → Option E
  | .ok _ => none
  | .error e => some e

/-- The outcome of one BaseDataProcessor.process iteration on a single
item: either the transformed value or the recorded ProcessingError. -/
def BaseDataProcessor.processItem {T : Type} [EntityLike T]
    (p : BaseDataProcessor T) (item : T) : Except (ProcessingError T) T :=
  match p.validate item with
  | .error e => .error ⟨item, e, "PROCESSING_ERROR"⟩
  | .ok validation =>
    if !validation.isValid then
      .error ⟨item, joinComma validation.errors, "VALIDATION_ERROR"⟩
    else
      match p.applyBusinessRules item with
      | .error e => .error ⟨item, e, "PROCESSING_ERROR"⟩
      | .ok processedItem => .ok processedItem

/-- The outcome of one createEventProcessor process iteration on a single
item. -/
def createEventProcessor.processItem {T : Type}
    (validator : T → Except Fault ValidationResult) (item : T) :
    Except (ProcessingError T) T :=
  match validator item with
  | .error e => .error ⟨item, e, "PROCESSING_ERROR"⟩
  | .ok validation =>
    if !validation.isValid then
      .error ⟨item, joinComma validation.errors, "VALIDATION_ERROR"⟩
    else
      .ok item

/-- A generic accumulator step driven by a per-item outcome function. -/
def stepOf {T : Type} (f : T → Except (ProcessingError T) T)
    (acc : List T × List (ProcessingError T)) (item : T) :
    List T × List (ProcessingError T) :=
  match f item with
  | .ok t => (acc.1 ++ [t], acc.2)
  | .error e => (acc.1, acc.2 ++ [e])

/-- A sample user whose id is empty, used to exercise the theorems at a
concrete input. -/
def emptyIdUser : User :=
  { id := "", createdAt := some 0, updatedAt := some 0
    email := "a@b", name := "Bob", role := Role.user }

/-- A login event whose id is empty but whose custom-validated fields are
present. -/
def emptyIdLoginEvent : userLoginEvent :=
  { id := "", eventType := "userLogin", userId := "user1", timestamp := some 0 }

/-- A custom validator that always raises a fault. -/
def boomValidator : User → Except Fault ValidationResult :=
  fun _ => .error "boom"

/-- A base processor whose validator faults and which has no business
rules at all. -/
def boomProcessor : BaseDataProcessor User :=
  { validator := boomValidator, businessRules := [] }

/-- A structurally and custom-valid user. -/
def validUser : User :=
  { id := "u1", createdAt := some 0, updatedAt := some 0
    email := "a@b", name := "Ann", role := Role.admin }

/-- A business rule that always raises a fault. -/
def failingRule : BusinessRule User :=
  ⟨"failingRule", fun _ => .error "rule failed"⟩

/-- A user pipeline whose second rule always faults. -/
def faultyPipeline : BaseDataProcessor User :=
  { validator := userValidator, businessRules := [normalizeEmail, failingRule] }

lemma BaseDataProcessor.processStep_eq_stepOf {T : Type} [EntityLike T]
    (p : BaseDataProcessor T) (acc : List T × List (ProcessingError T)) (item : T) :
    p.processStep acc item = stepOf p.processItem acc item := by
  simp only [BaseDataProcessor.processStep, BaseDataProcessor.processItem, stepOf]
  cases p.validate item with
  | error e => rfl
  | ok validation =>
    cases hv : validation.isValid with
    | false => simp [hv]
    | true =>
      cases p.applyBusinessRules item with
      | error e => simp [hv]
      | ok t => simp [hv]

lemma eventProcessStep_eq_stepOf {T : Type}
    (validator : T → Except Fault ValidationResult)
    (acc : List T × List (ProcessingError T)) (item : T) :
    createEventProcessor.processStep validator acc item =
      stepOf (createEventProcessor.processItem validator) acc item := by
  simp only [createEventProcessor.processStep, createEventProcessor.processItem, stepOf]
  cases validator item with
  | error e => rfl
  | ok validation =>
    cases hv : validation.isValid with
    | false => simp [hv]
    | true => simp [hv]

lemma foldl_stepOf {T : Type} (f : T → Except (ProcessingError T) T) :
    ∀ (data : List T) (a : List T) (b : List (ProcessingError T)),
      data.foldl (stepOf f) (a, b) =
        (a ++ data.filterMap (fun i => succOutcome (f i)),
         b ++ data.filterMap (fun i => failOutcome (f i))) := by
  intro data
  induction data with
  | nil => intro a b; simp
  | cons x xs ih =>
    intro a b
    rw [List.foldl_cons]
    cases h : f x with
    | ok t =>
      simp only [stepOf, h, List.filterMap_cons, succOutcome, failOutcome, ih]
      simp
    | error e =>
      simp only [stepOf, h, List.filterMap_cons, succOutcome, failOutcome, ih]
      simp

lemma BaseDataProcessor.process_eq {T : Type} [EntityLike T]
    (p : BaseDataProcessor T) (data : List T) :
    p.process data =
      { processed := data.filterMap (fun i => succOutcome (p.processItem i))
        errors := data.filterMap (fun i => failOutcome (p.processItem i))
        summary :=
          { total := data.length
            successful := (data.filterMap (fun i => succOutcome (p.processItem i))).length
            failed := (data.filterMap (fun i => failOutcome (p.processItem i))).length
            duration := 0 } } := by
  have hstep : p.processStep = stepOf p.processItem := by
    funext acc item; exact p.processStep_eq_stepOf acc item
  simp [BaseDataProcessor.process, hstep, foldl_stepOf]

lemma eventProcess_eq {T : Type}
    (validator : T → Except Fault ValidationResult) (data : List T) :
    createEventProcessor.process validator data =
      { processed := data.filterMap
          (fun i => succOutcome (createEventProcessor.processItem validator i))
        errors := data.filterMap
          (fun i => failOutcome (createEventProcessor.processItem validator i))
        summary :=
          { total := data.length
            successful := (data.filterMap
              (fun i => succOutcome (createEventProcessor.processItem validator i))).length
            failed := (data.filterMap
              (fun i => failOutcome (createEventProcessor.processItem validator i))).length
            duration := 0 } } := by
  have hstep : createEventProcessor.processStep validator =
      stepOf (createEventProcessor.processItem validator) := by
    funext acc item; exact eventProcessStep_eq_stepOf validator acc item
  simp [createEventProcessor.process, hstep, foldl_stepOf]

lemma BaseDataProcessor.processItem_error_item {T : Type} [EntityLike T]
    (p : BaseDataProcessor T) (item : T) (e : ProcessingError T)
    (h : p.processItem item = .error e) : e.item = item := by
  simp only [BaseDataProcessor.processItem] at h
  split at h
  · injection h with h2; subst h2; rfl
  · split at h
    · injection h with h2; subst h2; rfl
    · split at h
      · injection h with h2; subst h2; rfl
      · exact absurd h (by simp)

lemma eventProcessItem_error_item {T : Type}
    (validator : T → Except Fault ValidationResult) (item : T) (e : ProcessingError T)
    (h : createEventProcessor.processItem validator item = .error e) : e.item = item := by
  simp only [createEventProcessor.processItem] at h
  split at h
  · injection h with h2; subst h2; rfl
  · split at h
    · injection h with h2; subst h2; rfl
    · exact absurd h (by simp)

lemma succOutcome_ok {E A : Type} (a : A) :
    succOutcome (Except.ok a : Except E A) = some a := rfl

lemma succOutcome_error {E A : Type} (e : E) :
    succOutcome (Except.error e : Except E A) = none := rfl

lemma failOutcome_ok {E A : Type} (a : A) :
    failOutcome (Except.ok a : Except E A) = none := rfl

lemma failOutcome_error {E A : Type} (e : E) :
    failOutcome (Except.error e : Except E A) = some e := rfl

lemma length_filterMap_outcomes {E A B : Type} (f : B → Except E A) (data : List B) :
    (data.filterMap (fun i => succOutcome (f i))).length +
      (data.filterMap (fun i => failOutcome (f i))).length = data.length := by
  induction data with
  | nil => simp
  | cons x xs ih =>
    cases h : f x with
    | ok a =>
      simp only [List.filterMap_cons, h, succOutcome_ok, failOutcome_ok, List.length_cons]
      omega
    | error e =>
      simp only [List.filterMap_cons, h, succOutcome_error, failOutcome_error, List.length_cons]
      omega

/-- C1: for both processor families, `processed` is exactly the ordered
sequence of per-item success outcomes and `errors` the ordered sequence of
per-item failure records (so both preserve the input's relative order),
each input item lands in exactly one of the two (the per-item outcome is
either a success or a failure, never both or neither), and each error
record carries the original input item. -/
theorem process_partitions_input :
    (∀ (T : Type) [EntityLike T] (p : BaseDataProcessor T) (data : List T),
      (p.process data).processed =
          data.filterMap (fun i => succOutcome (p.processItem i)) ∧
      (p.process data).errors =
          data.filterMap (fun i => failOutcome (p.processItem i)) ∧
      (∀ item : T, (succOutcome (p.processItem item)).isSome ↔
          (failOutcome (p.processItem item)).isNone) ∧
      (∀ (item : T) (e : ProcessingError T),
          failOutcome (p.processItem item) = some e → e.item = item)) ∧
    (∀ (T : Type) (validator : T → Except Fault ValidationResult) (data : List T),
      (createEventProcessor.process validator data).processed =
          data.filterMap (fun i => succOutcome (createEventProcessor.processItem validator i)) ∧
      (createEventProcessor.process validator data).errors =
          data.filterMap (fun i => failOutcome (createEventProcessor.processItem validator i)) ∧
      (∀ item : T, (succOutcome (createEventProcessor.processItem validator item)).isSome ↔
          (failOutcome (createEventProcessor.processItem validator item)).isNone) ∧
      (∀ (item : T) (e : ProcessingError T),
          failOutcome (createEventProcessor.processItem validator item) = some e →
            e.item = item)) := by
  constructor
  · intro T _ p data
    refine ⟨by simp [p.process_eq], by simp [p.process_eq], ?_, ?_⟩
    · intro item
      cases h : p.processItem item <;> simp [succOutcome, failOutcome, h]
    · intro item e he
      cases h : p.processItem item with
      | ok t => rw [h] at he; exact absurd he (by simp [succOutcome, failOutcome])
      | error e0 =>
        rw [h] at he
        simp only [failOutcome, Option.some_inj] at he
        subst he
        exact p.processItem_error_item item e0 h
  · intro T validator data
    refine ⟨by simp [eventProcess_eq],
        by simp [eventProcess_eq], ?_, ?_⟩
    · intro item
      cases h : createEventProcessor.processItem validator item <;>
        simp [succOutcome, failOutcome, h]
    · intro item e he
      cases h : createEventProcessor.processItem validator item with
      | ok t => rw [h] at he; exact absurd he (by simp [succOutcome, failOutcome])
      | error e0 =>
        rw [h] at he
        simp only [failOutcome, Option.some_inj] at he
        subst he
        exact eventProcessItem_error_item validator item e0 h

/-- Witness for C1 at a concrete input: the empty-id user fails, its error
record is the sole failure outcome and carries the original item. -/
theorem process_partitions_input_witness :
    failOutcome ((UserProcessor 5).processItem emptyIdUser) =
        some ⟨emptyIdUser, "ID is required", "VALIDATION_ERROR"⟩ ∧
    (⟨emptyIdUser, "ID is required", "VALIDATION_ERROR"⟩ : ProcessingError User).item =
        emptyIdUser :=
  ⟨by decide,
    (process_partitions_input.1 User (UserProcessor 5) [emptyIdUser]).2.2.2
      emptyIdUser ⟨emptyIdUser, "ID is required", "VALIDATION_ERROR"⟩ (by decide)⟩

/-- C2: for both processor families, the summary counts its input exactly:
total is the input length, successful the length of processed, failed the
length of errors, successful + failed = total; and the empty input yields
empty processed and errors and an all-zero summary. -/
theorem process_summary_counts :
    (∀ (T : Type) [EntityLike T] (p : BaseDataProcessor T) (data : List T),
      (p.process data).summary.total = data.length ∧
      (p.process data).summary.successful = (p.process data).processed.length ∧
      (p.process data).summary.failed = (p.process data).errors.length ∧
      (p.process data).summary.successful + (p.process data).summary.failed =
        (p.process data).summary.total) ∧
    (∀ (T : Type) [EntityLike T] (p : BaseDataProcessor T),
      (p.process ([] : List T)).processed = [] ∧
      (p.process ([] : List T)).errors = [] ∧
      (p.process ([] : List T)).summary = ⟨0, 0, 0, 0⟩) ∧
    (∀ (T : Type) (validator : T → Except Fault ValidationResult) (data : List T),
      (createEventProcessor.process validator data).summary.total = data.length ∧
      (createEventProcessor.process validator data).summary.successful =
        (createEventProcessor.process validator data).processed.length ∧
      (createEventProcessor.process validator data).summary.failed =
        (createEventProcessor.process validator data).errors.length ∧
      (createEventProcessor.process validator data).summary.successful +
          (createEventProcessor.process validator data).summary.failed =
        (createEventProcessor.process validator data).summary.total) ∧
    (∀ (T : Type) (validator : T → Except Fault ValidationResult),
      (createEventProcessor.process validator ([] : List T)).processed = [] ∧
      (createEventProcessor.process validator ([] : List T)).errors = [] ∧
      (createEventProcessor.process validator ([] : List T)).summary = ⟨0, 0, 0, 0⟩) := by
  refine ⟨?_, ?_, ?_, ?_⟩
  · intro T _ p data
    refine ⟨by simp [p.process_eq], by simp [p.process_eq], by simp [p.process_eq], ?_⟩
    simp only [p.process_eq]
    exact length_filterMap_outcomes p.processItem data
  · intro T _ p
    exact ⟨rfl, rfl, rfl⟩
  · intro T validator data
    refine ⟨by simp [eventProcess_eq],
      by simp [eventProcess_eq],
      by simp [eventProcess_eq], ?_⟩
    simp only [eventProcess_eq]
    exact length_filterMap_outcomes (createEventProcessor.processItem validator) data
  · intro T validator
    exact ⟨rfl, rfl, rfl⟩

lemma BaseDataProcessor.process_singleton {T : Type} [EntityLike T]
    (p : BaseDataProcessor T) (item : T) :
    p.process [item] =
      match p.processItem item with
      | .ok t => ⟨[t], [], ⟨1, 1, 0, 0⟩⟩
      | .error e => ⟨[], [e], ⟨1, 0, 1, 0⟩⟩ := by
  rw [p.process_eq]
  cases h : p.processItem item with
  | ok t => simp [List.filterMap_cons, h, succOutcome_ok, failOutcome_ok]
  | error e => simp [List.filterMap_cons, h, succOutcome_error, failOutcome_error]

lemma eventProcess_singleton {T : Type}
    (validator : T → Except Fault ValidationResult) (item : T) :
    createEventProcessor.process validator [item] =
      match createEventProcessor.processItem validator item with
      | .ok t => ⟨[t], [], ⟨1, 1, 0, 0⟩⟩
      | .error e => ⟨[], [e], ⟨1, 0, 1, 0⟩⟩ := by
  rw [eventProcess_eq]
  cases h : createEventProcessor.processItem validator item with
  | ok t => simp [List.filterMap_cons, h, succOutcome_ok, failOutcome_ok]
  | error e => simp [List.filterMap_cons, h, succOutcome_error, failOutcome_error]

lemma BaseDataProcessor.processItem_validate_error {T : Type} [EntityLike T]
    (p : BaseDataProcessor T) (item : T) (f : Fault)
    (h : p.validate item = .error f) :
    p.processItem item = .error ⟨item, f, "PROCESSING_ERROR"⟩ := by
  simp [BaseDataProcessor.processItem, h]

lemma BaseDataProcessor.processItem_invalid {T : Type} [EntityLike T]
    (p : BaseDataProcessor T) (item : T) (v : ValidationResult)
    (h : p.validate item = .ok v) (hv : v.isValid = false) :
    p.processItem item = .error ⟨item, joinComma v.errors, "VALIDATION_ERROR"⟩ := by
  simp [BaseDataProcessor.processItem, h, hv]

lemma BaseDataProcessor.processItem_valid {T : Type} [EntityLike T]
    (p : BaseDataProcessor T) (item : T) (v : ValidationResult)
    (h : p.validate item = .ok v) (hv : v.isValid = true) :
    p.processItem item =
      match p.applyBusinessRules item with
      | .ok t => .ok t
      | .error e => .error ⟨item, e, "PROCESSING_ERROR"⟩ := by
  simp only [BaseDataProcessor.processItem, h, hv, Bool.not_true]
  cases p.applyBusinessRules item <;> simp

lemma eventProcessItem_validator_error {T : Type}
    (validator : T → Except Fault ValidationResult) (item : T) (f : Fault)
    (h : validator item = .error f) :
    createEventProcessor.processItem validator item =
      .error ⟨item, f, "PROCESSING_ERROR"⟩ := by
  simp [createEventProcessor.processItem, h]

lemma eventProcessItem_invalid {T : Type}
    (validator : T → Except Fault ValidationResult) (item : T) (cv : ValidationResult)
    (h : validator item = .ok cv) (hv : cv.isValid = false) :
    createEventProcessor.processItem validator item =
      .error ⟨item, joinComma cv.errors, "VALIDATION_ERROR"⟩ := by
  simp [createEventProcessor.processItem, h, hv]

lemma eventProcessItem_valid {T : Type}
    (validator : T → Except Fault ValidationResult) (item : T) (cv : ValidationResult)
    (h : validator item = .ok cv) (hv : cv.isValid = true) :
    createEventProcessor.processItem validator item = .ok item := by
  simp [createEventProcessor.processItem, h, hv]

/-- C3 counterexample: for the event processor built from
userLoginValidator, validate rejects the event with the empty id (with the
message "ID is required"), yet process accepts it: the event lands in
processed and errors stays empty, because process consults the custom
validator directly instead of validate. -/
theorem event_process_skips_structural_checks :
    createEventProcessor.validate userLoginValidator emptyIdLoginEvent =
      .ok ⟨false, ["ID is required"]⟩ ∧
    (createEventProcessor.process userLoginValidator [emptyIdLoginEvent]).processed =
      [emptyIdLoginEvent] ∧
    (createEventProcessor.process userLoginValidator [emptyIdLoginEvent]).errors = [] :=
  ⟨by decide, by decide, by decide⟩

/-- C3 (amended): for BaseDataProcessor, whose process calls validate, an
item lands in errors with code VALIDATION_ERROR and the joined errors of
validate(item) iff validate(item) is invalid (when the validator does not
fault), and an empty identifier makes validate invalid with an
"ID is required" message; the processors returned by createEventProcessor
instead consult the custom validator directly inside process, so there the
recorded message joins validator(item)'s errors and an item the custom
validator accepts is processed even when validate(item) is invalid. -/
theorem validation_error_characterization :
    (∀ (T : Type) [EntityLike T] (p : BaseDataProcessor T) (item : T)
        (v : ValidationResult),
      p.validate item = .ok v →
        ((v.isValid = false →
          (p.process [item]).errors =
            [⟨item, joinComma v.errors, "VALIDATION_ERROR"⟩] ∧
          (p.process [item]).processed = []) ∧
         (v.isValid = true →
          ∀ e ∈ (p.process [item]).errors, e.code ≠ "VALIDATION_ERROR"))) ∧
    (∀ (T : Type) [EntityLike T] (p : BaseDataProcessor T) (item : T)
        (cv : ValidationResult),
      EntityLike.id item = "" → p.validator item = .ok cv →
        ∃ v, p.validate item = .ok v ∧ v.isValid = false ∧
          "ID is required" ∈ v.errors) ∧
    (∀ (T : Type) (validator : T → Except Fault ValidationResult) (item : T)
        (cv : ValidationResult),
      validator item = .ok cv →
        ((cv.isValid = false →
          (createEventProcessor.process validator [item]).errors =
            [⟨item, joinComma cv.errors, "VALIDATION_ERROR"⟩] ∧
          (createEventProcessor.process validator [item]).processed = []) ∧
         (cv.isValid = true →
          (createEventProcessor.process validator [item]).errors = [] ∧
          (createEventProcessor.process validator [item]).processed = [item]))) := by
  refine ⟨?_, ?_, ?_⟩
  · intro T _ p item v h
    constructor
    · intro hv
      rw [p.process_singleton, p.processItem_invalid item v h hv]
      exact ⟨rfl, rfl⟩
    · intro hv e he
      rw [p.process_singleton, p.processItem_valid item v h hv] at he
      cases happ : p.applyBusinessRules item with
      | ok t => rw [happ] at he; simp at he
      | error f =>
        rw [happ] at he
        simp only [List.mem_singleton] at he
        subst he
        exact (by decide : ¬ ("PROCESSING_ERROR" : String) = "VALIDATION_ERROR")
  · intro T _ p item cv hid hcv
    refine ⟨⟨(structuralEntityErrors item ++
        (if !cv.isValid then cv.errors else [])).isEmpty,
        structuralEntityErrors item ++ (if !cv.isValid then cv.errors else [])⟩,
      ?_, ?_, ?_⟩
    · simp only [BaseDataProcessor.validate, hcv]
    · simp [structuralEntityErrors, hid]
    · simp [structuralEntityErrors, hid]
  · intro T validator item cv h
    constructor
    · intro hv
      rw [eventProcess_singleton,
        eventProcessItem_invalid validator item cv h hv]
      exact ⟨rfl, rfl⟩
    · intro hv
      rw [eventProcess_singleton,
        eventProcessItem_valid validator item cv h hv]
      exact ⟨rfl, rfl⟩

/-- Witness for C3 at concrete inputs: the empty-id user is recorded as a
VALIDATION_ERROR by the base processor, and the accepting branch of the
event characterization reproduces the counterexample's concrete outcome. -/
theorem validation_error_characterization_witness :
    (((UserProcessor 5).process [emptyIdUser]).errors =
      [⟨emptyIdUser, joinComma ["ID is required"], "VALIDATION_ERROR"⟩] ∧
     ((UserProcessor 5).process [emptyIdUser]).processed = []) ∧
    ((createEventProcessor.process userLoginValidator [emptyIdLoginEvent]).errors = [] ∧
     (createEventProcessor.process userLoginValidator [emptyIdLoginEvent]).processed =
       [emptyIdLoginEvent]) :=
  ⟨(validation_error_characterization.1 User (UserProcessor 5) emptyIdUser
      ⟨false, ["ID is required"]⟩ (by decide)).1 rfl,
   (validation_error_characterization.2.2 userLoginEvent userLoginValidator
      emptyIdLoginEvent ⟨true, []⟩ (by decide)).2 rfl⟩

/-- C4 counterexample: a processor with no transformation rules at all
still records a PROCESSING_ERROR entry when its validator faults, so the
entry does not arise from a rule application. -/
theorem processing_error_without_rule_fault :
    boomProcessor.businessRules = [] ∧
    (boomProcessor.process [validUser]).errors =
      [⟨validUser, "boom", "PROCESSING_ERROR"⟩] ∧
    (boomProcessor.process [validUser]).processed = [] :=
  ⟨rfl, by decide, by decide⟩

/-- C4 (amended): an entry with code PROCESSING_ERROR appears exactly when
the validator or one of the transformation rules raises a fault on the
item (for event processors, when the custom validator raises); its message
is the fault's message, and the item is then absent from processed, with
no partially transformed value retained. -/
theorem processing_error_characterization :
    (∀ (T : Type) [EntityLike T] (p : BaseDataProcessor T) (item : T),
      (∀ f : Fault, p.validate item = .error f →
        (p.process [item]).errors = [⟨item, f, "PROCESSING_ERROR"⟩] ∧
        (p.process [item]).processed = []) ∧
      (∀ v : ValidationResult, p.validate item = .ok v → v.isValid = true →
        (∀ f : Fault, p.applyBusinessRules item = .error f →
          (p.process [item]).errors = [⟨item, f, "PROCESSING_ERROR"⟩] ∧
          (p.process [item]).processed = []) ∧
        (∀ t : T, p.applyBusinessRules item = .ok t →
          (p.process [item]).errors = [] ∧
          (p.process [item]).processed = [t])) ∧
      (∀ v : ValidationResult, p.validate item = .ok v → v.isValid = false →
        ∀ e ∈ (p.process [item]).errors, e.code ≠ "PROCESSING_ERROR")) ∧
    (∀ (T : Type) (validator : T → Except Fault ValidationResult) (item : T)
        (f : Fault),
      validator item = .error f →
        (createEventProcessor.process validator [item]).errors =
          [⟨item, f, "PROCESSING_ERROR"⟩] ∧
        (createEventProcessor.process validator [item]).processed = []) := by
  constructor
  · intro T _ p item
    refine ⟨?_, ?_, ?_⟩
    · intro f hf
      rw [p.process_singleton, p.processItem_validate_error item f hf]
      exact ⟨rfl, rfl⟩
    · intro v hv hvalid
      constructor
      · intro f happ
        rw [p.process_singleton, p.processItem_valid item v hv hvalid, happ]
        exact ⟨rfl, rfl⟩
      · intro t happ
        rw [p.process_singleton, p.processItem_valid item v hv hvalid, happ]
        exact ⟨rfl, rfl⟩
    · intro v hv hvalid e he
      rw [p.process_singleton, p.processItem_invalid item v hv hvalid] at he
      simp only [List.mem_singleton] at he
      subst he
      exact (by decide : ¬ ("VALIDATION_ERROR" : String) = "PROCESSING_ERROR")
  · intro T validator item f hf
    rw [eventProcess_singleton,
      eventProcessItem_validator_error validator item f hf]
    exact ⟨rfl, rfl⟩

/-- Witness for C4 at a concrete input: the pipeline whose second rule
faults records the item as PROCESSING_ERROR with the fault's message and
drops it from processed. -/
theorem processing_error_characterization_witness :
    (faultyPipeline.process [validUser]).errors =
      [⟨validUser, "rule failed", "PROCESSING_ERROR"⟩] ∧
    (faultyPipeline.process [validUser]).processed = [] :=
  ((processing_error_characterization.1 User faultyPipeline validUser).2.1
      ⟨true, []⟩ (by decide) rfl).1 "rule failed" (by decide)

/-- C5: process is a total function into ProcessingResult (it never
raises): nothing is dropped — the processed and error lists account for
the whole input — and every per-item fault, whether raised by the
caller-supplied validator (directly or through validate) or by a rule, is
captured as a PROCESSING_ERROR entry carrying the item. -/
theorem process_never_raises :
    (∀ (T : Type) [EntityLike T] (p : BaseDataProcessor T) (data : List T),
      (p.process data).processed.length + (p.process data).errors.length =
        data.length ∧
      (∀ item ∈ data, ∀ f : Fault, p.validate item = .error f →
        ∃ e ∈ (p.process data).errors,
          e.item = item ∧ e.code = "PROCESSING_ERROR") ∧
      (∀ item ∈ data, ∀ v : ValidationResult, p.validate item = .ok v →
        v.isValid = true → ∀ f : Fault, p.applyBusinessRules item = .error f →
        ∃ e ∈ (p.process data).errors,
          e.item = item ∧ e.code = "PROCESSING_ERROR")) ∧
    (∀ (T : Type) (validator : T → Except Fault ValidationResult) (data : List T),
      (createEventProcessor.process validator data).processed.length +
          (createEventProcessor.process validator data).errors.length =
        data.length ∧
      (∀ item ∈ data, ∀ f : Fault, validator item = .error f →
        ∃ e ∈ (createEventProcessor.process validator data).errors,
          e.item = item ∧ e.code = "PROCESSING_ERROR")) := by
  constructor
  · intro T _ p data
    refine ⟨?_, ?_, ?_⟩
    · simp only [p.process_eq]
      exact length_filterMap_outcomes p.processItem data
    · intro item hmem f hf
      refine ⟨⟨item, f, "PROCESSING_ERROR"⟩, ?_, rfl, rfl⟩
      simp only [p.process_eq]
      rw [List.mem_filterMap]
      exact ⟨item, hmem, by rw [p.processItem_validate_error item f hf]; rfl⟩
    · intro item hmem v hv hvalid f happ
      refine ⟨⟨item, f, "PROCESSING_ERROR"⟩, ?_, rfl, rfl⟩
      simp only [p.process_eq]
      rw [List.mem_filterMap]
      refine ⟨item, hmem, ?_⟩
      rw [p.processItem_valid item v hv hvalid, happ]
      rfl
  · intro T validator data
    refine ⟨?_, ?_⟩
    · simp only [eventProcess_eq]
      exact length_filterMap_outcomes (createEventProcessor.processItem validator) data
    · intro item hmem f hf
      refine ⟨⟨item, f, "PROCESSING_ERROR"⟩, ?_, rfl, rfl⟩
      simp only [eventProcess_eq]
      rw [List.mem_filterMap]
      exact ⟨item, hmem,
        by rw [eventProcessItem_validator_error validator item f hf]; rfl⟩

/-- Witness for C5 at a concrete input: the faulting validator's fault on
a concrete user is captured in the error list of boomProcessor.process. -/
theorem process_never_raises_witness :
    ∃ e ∈ (boomProcessor.process [validUser]).errors,
      e.item = validUser ∧ e.code = "PROCESSING_ERROR" :=
  (process_never_raises.1 User boomProcessor [validUser]).2.1
    validUser (by simp) "boom" (by decide)

lemma exceptBind_ok {E A B : Type} (a : A) (f : A → Except E B) :
    (Except.ok a >>= f) = f a := rfl

lemma exceptBind_error {E A B : Type} (e : E) (f : A → Except E B) :
    ((Except.error e : Except E A) >>= f) = .error e := rfl

lemma exceptBindFn_ok {E A B : Type} (a : A) (f : A → Except E B) :
    (Except.ok a).bind f = f a := rfl

lemma exceptBindFn_error {E A B : Type} (e : E) (f : A → Except E B) :
    (Except.error e : Except E A).bind f = .error e := rfl

lemma pureExcept {E A : Type} (a : A) : (pure a : Except E A) = .ok a := rfl

lemma applyBusinessRules_append {T : Type}
    (v : T → Except Fault ValidationResult)
    (rs : List (BusinessRule T)) (r : BusinessRule T) (item : T) :
    BaseDataProcessor.applyBusinessRules ⟨v, rs ++ [r]⟩ item =
      (BaseDataProcessor.applyBusinessRules ⟨v, rs⟩ item).bind r.apply := by
  induction rs generalizing item with
  | nil =>
    simp only [BaseDataProcessor.applyBusinessRules, List.nil_append,
      List.foldlM_cons, List.foldlM_nil]
    cases h : r.apply item <;>
      simp [h, exceptBind_ok, exceptBind_error, exceptBindFn_ok, exceptBindFn_error,
        pureExcept]
  | cons x xs ih =>
    simp only [BaseDataProcessor.applyBusinessRules] at ih ⊢
    simp only [List.cons_append, List.foldlM_cons]
    cases h : x.apply item with
    | error e =>
      simp [h, exceptBind_error, exceptBindFn_error]
    | ok b =>
      simp only [h, exceptBind_ok, ih b]

/-- C6: the rules run strictly in declaration order — appending a rule at
the end of the configuration post-composes it, so each rule consumes the
previous rule's output — and a validated, non-faulting item reaches
processed fully transformed; concretely, the user pipeline (normalizeEmail
then updateTimestamp) produces the user with the email lower-cased and
trimmed and the timestamp then set to the rule-application time. -/
theorem rules_apply_in_declared_order :
    (∀ (T : Type) (v : T → Except Fault ValidationResult)
        (rs : List (BusinessRule T)) (r : BusinessRule T) (item : T),
      BaseDataProcessor.applyBusinessRules ⟨v, rs ++ [r]⟩ item =
        (BaseDataProcessor.applyBusinessRules ⟨v, rs⟩ item).bind r.apply) ∧
    (∀ (T : Type) [EntityLike T] (p : BaseDataProcessor T) (item : T)
        (v : ValidationResult) (t : T),
      p.validate item = .ok v → v.isValid = true →
      p.applyBusinessRules item = .ok t →
        (p.process [item]).processed = [t] ∧ (p.process [item]).errors = []) ∧
    (∀ (now : Nat) (u : User),
      EntityLike.id u ≠ "" → (EntityLike.createdAt u).isNone = false →
      (EntityLike.updatedAt u).isNone = false →
      u.email.data.contains '@' = true → 0 < u.name.length →
        ((UserProcessor now).process [u]).processed =
          [{ u with email := jsTrim (jsToLower u.email), updatedAt := some now }] ∧
        ((UserProcessor now).process [u]).errors = []) := by
  refine ⟨fun T v rs r item => applyBusinessRules_append v rs r item, ?_, ?_⟩
  · intro T _ p item v t hv hvalid happ
    rw [p.process_singleton, p.processItem_valid item v hv hvalid, happ]
    exact ⟨rfl, rfl⟩
  · intro now u hid hca hua hmail hname
    have hmail2 : '@' ∈ u.email.data := by simpa using hmail
    have hval : (UserProcessor now).validate u = .ok ⟨true, []⟩ := by
      simp [BaseDataProcessor.validate, UserProcessor, userValidator,
        structuralEntityErrors, hid, hca, hua, hmail2, hname]
    have happ : (UserProcessor now).applyBusinessRules u =
        .ok { u with email := jsTrim (jsToLower u.email), updatedAt := some now } := rfl
    rw [(UserProcessor now).process_singleton,
      (UserProcessor now).processItem_valid u ⟨true, []⟩ hval rfl, happ]
    exact ⟨rfl, rfl⟩

/-- Witness for C6 at a concrete input: a user with upper-case, padded
email comes out of the pipeline with the email normalized and the
timestamp updated. -/
theorem rules_apply_in_declared_order_witness :
    ((UserProcessor 7).process
        [{ id := "u1", createdAt := some 0, updatedAt := some 0
           email := " A@B ", name := "Ann", role := Role.admin }]).processed =
      [{ id := "u1", createdAt := some 0, updatedAt := some 7
         email := "a@b", name := "Ann", role := Role.admin }] ∧
    ((UserProcessor 7).process
        [{ id := "u1", createdAt := some 0, updatedAt := some 0
           email := " A@B ", name := "Ann", role := Role.admin }]).errors = [] := by
  have h := rules_apply_in_declared_order.2.2 7
    { id := "u1", createdAt := some 0, updatedAt := some 0
      email := " A@B ", name := "Ann", role := Role.admin }
    (by decide) (by decide) (by decide) (by decide) (by decide)
  exact ⟨h.1.trans (by decide), h.2⟩

lemma mapThrow_ok {T U : Type} (f : T → U) (data : List T) :
    mapThrow (fun x => .ok (f x)) data = .ok (data.map f) := by
  induction data with
  | nil => rfl
  | cons x xs ih => simp [mapThrow, ih]

lemma mapThrow_error_of_mem {T U : Type} (m : T → Except Fault U)
    (data : List T) (x : T) (e : Fault)
    (hmem : x ∈ data) (hx : m x = .error e) :
    ∃ e2, mapThrow m data = .error e2 := by
  induction data with
  | nil => cases hmem
  | cons y ys ih =>
    cases hy : m y with
    | error e2 => exact ⟨e2, by simp [mapThrow, hy]⟩
    | ok u =>
      rcases List.mem_cons.mp hmem with rfl | hmem2
      · rw [hx] at hy; cases hy
      · obtain ⟨e2, h2⟩ := ih hmem2
        exact ⟨e2, by simp [mapThrow, hy, h2]⟩

/-- C7: transform is the pure order-preserving map — on a non-faulting
mapper it returns exactly data.map f, which has the input's length and
whose i-th element is f applied to the i-th input — it is independent of
the validator and rule state (it never consults them), it does not catch
faults (a mapper fault propagates as an error result), and the event
processors' transform is the same function. -/
theorem transform_is_pure_map :
    (∀ (T U : Type) (data : List T) (f : T → U),
      BaseDataProcessor.transform data (fun x => .ok (f x)) = .ok (data.map f) ∧
      (data.map f).length = data.length ∧
      (∀ (i : Nat) (h : i < data.length) (h2 : i < (data.map f).length),
        (data.map f).get ⟨i, h2⟩ = f (data.get ⟨i, h⟩))) ∧
    (∀ (T U : Type) (data : List T) (m : T → Except Fault U) (x : T) (e : Fault),
      x ∈ data → m x = .error e →
        ∃ e2, BaseDataProcessor.transform data m = .error e2) ∧
    (∀ (T U : Type) (data : List T) (m : T → Except Fault U),
      createEventProcessor.transform data m = BaseDataProcessor.transform data m) := by
  refine ⟨?_, ?_, ?_⟩
  · intro T U data f
    refine ⟨mapThrow_ok f data, List.length_map data f, ?_⟩
    intro i h h2
    simp [List.getElem_map]
  · intro T U data m x e hmem hx
    exact mapThrow_error_of_mem m data x e hmem hx
  · intro T U data m
    rfl

/-- Witness for C7 at a concrete input: a faulting mapper makes transform
propagate an error on a nonempty list. -/
theorem transform_is_pure_map_witness :
    ∃ e2, BaseDataProcessor.transform [validUser]
      (fun _ => (.error "mapper failed" : Except Fault Nat)) = .error e2 :=
  transform_is_pure_map.2.1 User Nat [validUser]
    (fun _ => (.error "mapper failed" : Except Fault Nat)) validUser
    "mapper failed" (by simp) rfl

/-- C8: validate is deterministic and side-effect free: with a pure
(non-faulting) validator both calls return one and the same outcome, and
the outcome depends on nothing but the item's structural fields and the
validator's outcome on it — in particular it is independent of the
configured business rules and of any other state. -/
theorem validate_deterministic :
    (∀ (T : Type) [EntityLike T] (p : BaseDataProcessor T) (item : T)
        (r : ValidationResult),
      p.validator item = .ok r →
        ∃ out : ValidationResult,
          p.validate item = .ok out ∧ p.validate item = .ok out) ∧
    (∀ (T : Type) [EntityLike T] (v v2 : T → Except Fault ValidationResult)
        (rs rs2 : List (BusinessRule T)) (item item2 : T),
      EntityLike.id item = EntityLike.id item2 →
      EntityLike.createdAt item = EntityLike.createdAt item2 →
      EntityLike.updatedAt item = EntityLike.updatedAt item2 →
      v item = v2 item2 →
        BaseDataProcessor.validate ⟨v, rs⟩ item =
          BaseDataProcessor.validate ⟨v2, rs2⟩ item2) ∧
    (∀ (T : Type) [EventLike T] (v v2 : T → Except Fault ValidationResult)
        (item item2 : T),
      EventLike.id item = EventLike.id item2 →
      EventLike.eventType item = EventLike.eventType item2 →
      v item = v2 item2 →
        createEventProcessor.validate v item =
          createEventProcessor.validate v2 item2) := by
  refine ⟨?_, ?_, ?_⟩
  · intro T _ p item r h
    refine ⟨⟨(structuralEntityErrors item ++
        (if !r.isValid then r.errors else [])).isEmpty,
        structuralEntityErrors item ++ (if !r.isValid then r.errors else [])⟩,
      ?_, ?_⟩ <;> simp only [BaseDataProcessor.validate, h]
  · intro T _ v v2 rs rs2 item item2 hid hca hua hv
    simp only [BaseDataProcessor.validate, structuralEntityErrors, hid, hca, hua, hv]
  · intro T _ v v2 item item2 hid het hv
    simp only [createEventProcessor.validate, createEventProcessor.structuralEventErrors,
      hid, het, hv]

/-- Witness for C8 at a concrete input: both calls of validate on the
valid user return the same outcome. -/
theorem validate_deterministic_witness :
    ∃ out : ValidationResult,
      (UserProcessor 5).validate validUser = .ok out ∧
      (UserProcessor 5).validate validUser = .ok out :=
  validate_deterministic.1 User (UserProcessor 5) validUser ⟨true, []⟩ (by decide)

lemma isEmpty_false_of_mem {A : Type} {a : A} {l : List A} (h : a ∈ l) :
    l.isEmpty = false := by
  cases l with
  | nil => cases h
  | cons x xs => rfl

/-- C9: in both validate implementations, validity is exactly emptiness of
the combined error list; in particular a custom validator returning
isValid=false with no error strings (the shape of the generic event
processor's validator, which always returns an empty error list) is
overridden: when the structural checks also produce no errors, validate
returns isValid=true. -/
theorem validity_ignores_custom_flag :
    (∀ (T : Type) [EntityLike T] (p : BaseDataProcessor T) (item : T)
        (out : ValidationResult),
      p.validate item = .ok out → out.isValid = out.errors.isEmpty) ∧
    (∀ (T : Type) [EventLike T] (v : T → Except Fault ValidationResult) (item : T)
        (out : ValidationResult),
      createEventProcessor.validate v item = .ok out →
        out.isValid = out.errors.isEmpty) ∧
    (∀ (T : Type) [EntityLike T] (v : T → Except Fault ValidationResult)
        (rs : List (BusinessRule T)) (item : T) (b : Bool),
      v item = .ok ⟨b, []⟩ → structuralEntityErrors item = [] →
        BaseDataProcessor.validate ⟨v, rs⟩ item = .ok ⟨true, []⟩) ∧
    (∀ (T : Type) [EventLike T] (v : T → Except Fault ValidationResult)
        (item : T) (b : Bool),
      v item = .ok ⟨b, []⟩ → createEventProcessor.structuralEventErrors item = [] →
        createEventProcessor.validate v item = .ok ⟨true, []⟩) ∧
    (∀ e : BaseEvent, ∃ b : Bool, genericEventValidator e = .ok ⟨b, []⟩) := by
  refine ⟨?_, ?_, ?_, ?_, ?_⟩
  · intro T _ p item out h
    simp only [BaseDataProcessor.validate] at h
    cases hv : p.validator item with
    | error e => rw [hv] at h; cases h
    | ok cv =>
      rw [hv] at h
      injection h with h2
      subst h2
      rfl
  · intro T _ v item out h
    simp only [createEventProcessor.validate] at h
    cases hv : v item with
    | error e => rw [hv] at h; cases h
    | ok cv =>
      rw [hv] at h
      injection h with h2
      subst h2
      rfl
  · intro T _ v rs item b hv hs
    simp only [BaseDataProcessor.validate, hv, hs]
    cases b <;> simp
  · intro T _ v item b hv hs
    simp only [createEventProcessor.validate, hv, hs]
    cases b <;> simp
  · intro e
    exact ⟨(e.id != "") && (e.eventType != ""), rfl⟩

/-- Witness for C9 at a concrete input: a custom validator answering
isValid=false with an empty error list is overridden on a structurally
valid user — validate returns isValid=true. -/
theorem validity_ignores_custom_flag_witness :
    BaseDataProcessor.validate
        ⟨fun _ => .ok ⟨false, []⟩, ([] : List (BusinessRule User))⟩ validUser =
      .ok ⟨true, []⟩ :=
  validity_ignores_custom_flag.2.2.1 User (fun _ => .ok ⟨false, []⟩)
    [] validUser false rfl (by decide)

/-- C10: the structural checks test truthiness, not presence: an empty
identifier string (entity or event), an absent created/updated timestamp,
or an empty event-type string each makes validate invalid with the
corresponding "is required" message. -/
theorem falsy_fields_fail_validation :
    (∀ (T : Type) [EntityLike T] (p : BaseDataProcessor T) (item : T)
        (cv : ValidationResult),
      p.validator item = .ok cv → EntityLike.id item = "" →
        ∃ out, p.validate item = .ok out ∧ out.isValid = false ∧
          "ID is required" ∈ out.errors) ∧
    (∀ (T : Type) [EntityLike T] (p : BaseDataProcessor T) (item : T)
        (cv : ValidationResult),
      p.validator item = .ok cv → EntityLike.createdAt item = none →
        ∃ out, p.validate item = .ok out ∧ out.isValid = false ∧
          "Created date is required" ∈ out.errors) ∧
    (∀ (T : Type) [EntityLike T] (p : BaseDataProcessor T) (item : T)
        (cv : ValidationResult),
      p.validator item = .ok cv → EntityLike.updatedAt item = none →
        ∃ out, p.validate item = .ok out ∧ out.isValid = false ∧
          "Updated date is required" ∈ out.errors) ∧
    (∀ (T : Type) [EventLike T] (v : T → Except Fault ValidationResult) (item : T)
        (cv : ValidationResult),
      v item = .ok cv → EventLike.id item = "" →
        ∃ out, createEventProcessor.validate v item = .ok out ∧
          out.isValid = false ∧ "ID is required" ∈ out.errors) ∧
    (∀ (T : Type) [EventLike T] (v : T → Except Fault ValidationResult) (item : T)
        (cv : ValidationResult),
      v item = .ok cv → EventLike.eventType item = "" →
        ∃ out, createEventProcessor.validate v item = .ok out ∧
          out.isValid = false ∧ "Event type is required" ∈ out.errors) := by
  refine ⟨?_, ?_, ?_, ?_, ?_⟩
  · intro T _ p item cv hcv hid
    have hm : "ID is required" ∈ structuralEntityErrors item := by
      simp [structuralEntityErrors, hid]
    have hmem : "ID is required" ∈ structuralEntityErrors item ++
        (if !cv.isValid then cv.errors else []) := List.mem_append_left _ hm
    refine ⟨⟨(structuralEntityErrors item ++
        (if !cv.isValid then cv.errors else [])).isEmpty,
        structuralEntityErrors item ++ (if !cv.isValid then cv.errors else [])⟩,
      ?_, isEmpty_false_of_mem hmem, hmem⟩
    simp only [BaseDataProcessor.validate, hcv]
  · intro T _ p item cv hcv hca
    have hm : "Created date is required" ∈ structuralEntityErrors item := by
      simp [structuralEntityErrors, hca]
    have hmem : "Created date is required" ∈ structuralEntityErrors item ++
        (if !cv.isValid then cv.errors else []) := List.mem_append_left _ hm
    refine ⟨⟨(structuralEntityErrors item ++
        (if !cv.isValid then cv.errors else [])).isEmpty,
        structuralEntityErrors item ++ (if !cv.isValid then cv.errors else [])⟩,
      ?_, isEmpty_false_of_mem hmem, hmem⟩
    simp only [BaseDataProcessor.validate, hcv]
  · intro T _ p item cv hcv hua
    have hm : "Updated date is required" ∈ structuralEntityErrors item := by
      simp [structuralEntityErrors, hua]
    have hmem : "Updated date is required" ∈ structuralEntityErrors item ++
        (if !cv.isValid then cv.errors else []) := List.mem_append_left _ hm
    refine ⟨⟨(structuralEntityErrors item ++
        (if !cv.isValid then cv.errors else [])).isEmpty,
        structuralEntityErrors item ++ (if !cv.isValid then cv.errors else [])⟩,
      ?_, isEmpty_false_of_mem hmem, hmem⟩
    simp only [BaseDataProcessor.validate, hcv]
  · intro T _ v item cv hcv hid
    have hm : "ID is required" ∈ createEventProcessor.structuralEventErrors item := by
      simp [createEventProcessor.structuralEventErrors, hid]
    have hmem : "ID is required" ∈ createEventProcessor.structuralEventErrors item ++
        (if !cv.isValid then cv.errors else []) := List.mem_append_left _ hm
    refine ⟨⟨(createEventProcessor.structuralEventErrors item ++
        (if !cv.isValid then cv.errors else [])).isEmpty,
        createEventProcessor.structuralEventErrors item ++
          (if !cv.isValid then cv.errors else [])⟩,
      ?_, isEmpty_false_of_mem hmem, hmem⟩
    simp only [createEventProcessor.validate, hcv]
  · intro T _ v item cv hcv het
    have hm : "Event type is required" ∈
        createEventProcessor.structuralEventErrors item := by
      simp [createEventProcessor.structuralEventErrors, het]
    have hmem : "Event type is required" ∈
        createEventProcessor.structuralEventErrors item ++
          (if !cv.isValid then cv.errors else []) := List.mem_append_left _ hm
    refine ⟨⟨(createEventProcessor.structuralEventErrors item ++
        (if !cv.isValid then cv.errors else [])).isEmpty,
        createEventProcessor.structuralEventErrors item ++
          (if !cv.isValid then cv.errors else [])⟩,
      ?_, isEmpty_false_of_mem hmem, hmem⟩
    simp only [createEventProcessor.validate, hcv]

/-- Witness for C10 at a concrete input: the user whose id field is
present but empty is invalid with the "ID is required" message. -/
theorem falsy_fields_fail_validation_witness :
    ∃ out, (UserProcessor 0).validate emptyIdUser = .ok out ∧
      out.isValid = false ∧ "ID is required" ∈ out.errors :=
  falsy_fields_fail_validation.1 User (UserProcessor 0) emptyIdUser
    ⟨true, []⟩ (by decide) (by decide)
